import Mathlib

/-!
Shallow embedding of the G-Core CDN log pipeline core
(`src/cdn_log_parser.py`, `src/cmcd_parser.py`, and the raw-body handoff of
`src/otel_exporter.py`), together with theorems settling the frozen claims
about its specification.

Strings are modelled as Lean `String` / `List Char`; every Python string
operation used by the source is given an explicit executable model below.
Python's `str.strip`/`str.split(None, ..)` whitespace set is modelled by the
six ASCII whitespace characters, and `str.lower` by ASCII lowering, which is
exact for all inputs appearing in this development.
-/

/-- Model of Python's whitespace test used by `str.strip()` / `str.split(None)`
(ASCII whitespace characters). -/
def py_space (c : Char) : Bool :=
  c = ' ' || c = '\t' || c = '\n' || c = '\r' || c = '\x0b' || c = '\x0c'

/-- Model of Python `str.strip()` on a character list: drop whitespace from
both ends. -/
def strip_ws (l : List Char) : List Char :=
  ((l.dropWhile py_space).reverse.dropWhile py_space).reverse

/-- Model of Python `str.strip()` on strings. -/
def py_strip (s : String) : String :=
  (strip_ws s.data).asString

/-- Characters stripped by `str.strip("[]")`. -/
def bracket_char (c : Char) : Bool :=
  c = '[' || c = ']'

/-- Model of Python `str.lower()` (ASCII case folding). -/
def py_lower (s : String) : String :=
  (s.data.map Char.toLower).asString

/-- Tests whether `pat` is an initial segment of `s`
(model of Python `str.startswith`). -/
def starts_with : List Char → List Char → Bool
  | _, [] => true
  | [], _ :: _ => false
  | c :: cs, p :: ps => c = p && starts_with cs ps

/-- String-level wrapper for `starts_with`. -/
def str_starts (s pat : String) : Bool :=
  starts_with s.data pat.data

/-- Model of Python `str.split(sep)` for a one-character separator. -/
def split_on_char (sep : Char) : List Char → List (List Char)
  | [] => [[]]
  | c :: rest =>
    let r := split_on_char sep rest
    if c = sep then [] :: r
    else
      match r with
      | [] => [[c]]
      | h :: t => (c :: h) :: t

/-- Model of Python `str.replace('+', ' ')` as applied by `urllib.parse.parse_qsl`. -/
def plus_space (l : List Char) : List Char :=
  l.map fun c => if c = '+' then ' ' else c

/-- Value of an ASCII hex digit, if any. -/
def hex_digit (c : Char) : Option Nat :=
  if '0' ≤ c ∧ c ≤ '9' then some (c.toNat - '0'.toNat)
  else if 'a' ≤ c ∧ c ≤ 'f' then some (c.toNat - 'a'.toNat + 10)
  else if 'A' ≤ c ∧ c ≤ 'F' then some (c.toNat - 'A'.toNat + 10)
  else none

/-- Modelled from `urllib.parse.unquote`: each valid `%XX` escape decodes to
the code point of its byte value (exact for ASCII escapes; multi-byte UTF-8
escape sequences are approximated code-point-wise), an invalid escape keeps
the `%` literally and rescans from the following character. -/
def unquote_chars : List Char → List Char
  | '%' :: h1 :: h2 :: rest =>
    match hex_digit h1, hex_digit h2 with
    | some d1, some d2 => Char.ofNat (16 * d1 + d2) :: unquote_chars rest
    | _, _ => '%' :: unquote_chars (h1 :: h2 :: rest)
  | c :: rest => c :: unquote_chars rest
  | [] => []

/-- One name/value pair of `urllib.parse.parse_qsl(qs, keep_blank_values=True)`:
an empty chunk is skipped; a chunk without `=` becomes a name with empty
value; otherwise the chunk is split at the first `=`. -/
def qsl_pair (chunk : List Char) : Option (String × String) :=
  if chunk = [] then none
  else if chunk.contains '=' then
    some ((unquote_chars (plus_space (chunk.takeWhile fun c => !(c = '=')))).asString,
          (unquote_chars (plus_space ((chunk.dropWhile fun c => !(c = '=')).drop 1))).asString)
  else
    some ((unquote_chars (plus_space chunk)).asString, "")

/-- Name/value pairs of `urllib.parse.parse_qsl(qs, keep_blank_values=True)`
with the default separator `&`. -/
def qsl_pairs (qs : String) : List (String × String) :=
  (split_on_char '&' qs.data).filterMap qsl_pair

/-- Insertion step of the dict-of-lists built by `urllib.parse.parse_qs`:
append the value to an existing key's list, else append a new entry. -/
def qs_insert : List (String × List String) → String → String → List (String × List String)
  | [], k, v => [(k, [v])]
  | (k', vs) :: rest, k, v =>
    if k' = k then (k', vs ++ [v]) :: rest
    else (k', vs) :: qs_insert rest k v

/-- Model of `urllib.parse.parse_qs(qs, keep_blank_values=True)`: an
insertion-ordered dict from parameter name to the list of its values. -/
def parse_qs (qs : String) : List (String × List String) :=
  (qsl_pairs qs).foldl (fun d kv => qs_insert d kv.1 kv.2) []

/-- Python-dict assignment on an insertion-ordered association list:
update the value in place if the key exists, else append. -/
def dictInsert : List (String × String) → String → String → List (String × String)
  | [], k, v => [(k, v)]
  | (k', v') :: rest, k, v =>
    if k' = k then (k, v) :: rest
    else (k', v') :: dictInsert rest k v

/-- Lookup in an insertion-ordered association list (first matching key). -/
def dict_get : List (String × String) → String → Option String
  | [], _ => none
  | (k', v) :: rest, k => if k' = k then some v else dict_get rest k

/-- Lookup in the dict-of-lists produced by `parse_qs`. -/
def qdict_get : List (String × List String) → String → Option (List String)
  | [], _ => none
  | (k', vs) :: rest, k => if k' = k then some vs else qdict_get rest k

/-- Embeds `_clean` of `src/cmcd_parser.py`: strip, then remove one level of
surrounding double quotes. -/
def clean_value (v : String) : String :=
  let l := strip_ws v.data
  if 2 ≤ l.length && l.head? = some '"' && l.getLast? = some '"' then
    ((l.drop 1).dropLast).asString
  else l.asString

/-- Combined-form parameter of `parse_cmcd_from_query_string`: the first
`parse_qs` entry whose name lowercases to `cmcd`
(`next((params[k] for k in params if k.lower() == "cmcd"), None)`). -/
def find_combined (params : List (String × List String)) : Option (List String) :=
  match params.find? (fun kv => py_lower kv.1 == "cmcd") with
  | some kv => some kv.2
  | none => none

/-- One comma-separated `key=value` pair of the combined CMCD form: trim the
pair, require an `=`, split at the first `=`, trim key and value, skip empty
keys, store `cmcd.<key> := _clean(value)`. -/
def combined_pair_step (out : List (String × String)) (pairStr : List Char) :
    List (String × String) :=
  let p := strip_ws pairStr
  if p.contains '=' then
    let k := strip_ws (p.takeWhile fun c => !(c = '='))
    let v := strip_ws ((p.dropWhile fun c => !(c = '=')).drop 1)
    if k = [] then out
    else dictInsert out ("cmcd." ++ k.asString) (clean_value v.asString)
  else out

/-- First pass of `parse_cmcd_from_query_string`: all occurrences of the
combined `cmcd=` parameter, each split on commas, accumulated in order. -/
def combined_out (params : List (String × List String)) : List (String × String) :=
  match find_combined params with
  | none => []
  | some vals =>
    vals.foldl (fun out raw => (split_on_char ',' raw.data).foldl combined_pair_step out) []

/-- Second pass of `parse_cmcd_from_query_string`: a parameter whose name
starts with `cmcd.` (case-sensitive) and has values contributes
`cmcd.<suffix> := _clean(values[0])` when the suffix is non-empty. -/
def prefixed_step (out : List (String × String)) (kv : String × List String) :
    List (String × String) :=
  if str_starts kv.1 "cmcd." && !kv.2.isEmpty then
    if kv.1.data.drop 5 = [] then out
    else dictInsert out ("cmcd." ++ (kv.1.data.drop 5).asString) (clean_value (kv.2.headD ""))
  else out

/-- Second pass of `parse_cmcd_from_query_string` over all parameters. -/
def prefixed_fold (params : List (String × List String)) (out : List (String × String)) :
    List (String × String) :=
  params.foldl prefixed_step out

/-- Both passes of `parse_cmcd_from_query_string` after the blank guard. -/
def cmcd_out (params : List (String × List String)) : List (String × String) :=
  prefixed_fold params (combined_out params)

/-- Embeds `parse_cmcd_from_query_string` of `src/cmcd_parser.py`. -/
def parse_cmcd_from_query_string (qs : String) : List (String × String) :=
  if qs = "" || py_strip qs = "" then []
  else cmcd_out (parse_qs qs)

/-- Embeds `parse_cmcd_from_path` of `src/cmcd_parser.py`: extract CMCD from
the query portion after the first `?`, if any. -/
def parse_cmcd_from_path (p : String) : List (String × String) :=
  if p = "" then []
  else if p.data.contains '?' then
    parse_cmcd_from_query_string (((p.data.dropWhile fun c => !(c = '?')).drop 1).asString)
  else []

/-- Field scan of `_parse_quoted_fields`: starting just after an opening
quote, return the field's raw text (escapes still in place) and the remaining
input after the closing quote; a backslash skips the next character; end of
input ends the field (the unterminated case). -/
def scan_field : List Char → List Char × List Char
  | [] => ([], [])
  | '"' :: rest => ([], rest)
  | '\\' :: [] => (['\\'], [])
  | '\\' :: d :: rest2 => ('\\' :: d :: (scan_field rest2).1, (scan_field rest2).2)
  | c :: rest => (c :: (scan_field rest).1, (scan_field rest).2)

/-- Model of the `.replace('\x5c\x22', '\x22')` applied to each captured field:
left-to-right non-overlapping replacement of an escaped quote by a quote. -/
def replace_esc_quote : List Char → List Char
  | '\\' :: '"' :: rest => '"' :: replace_esc_quote rest
  | c :: rest => c :: replace_esc_quote rest
  | [] => []

/-- Embeds the while loop of `_parse_quoted_fields` of `src/cdn_log_parser.py`
as a two-mode state machine over the remaining input: mode `false` is the
outer scan (every character skipped until a quote opens a field), mode `true`
is the inner field capture (the captured slice held reversed in `acc`, a
backslash retaining itself and the following character, end of input emitting
the unterminated field). Structured this way so that the function is
structurally recursive and evaluates inside the kernel; `scan_field` above is
the same inner loop in direct form, and the two are related by lemmas below. -/
def pq_loop : Bool → List Char → List Char → List String
  | false, _, [] => []
  | true, acc, [] => [(replace_esc_quote acc.reverse).asString]
  | false, _, '"' :: rest => pq_loop true [] rest
  | false, _, _ :: rest => pq_loop false [] rest
  | true, acc, '"' :: rest => (replace_esc_quote acc.reverse).asString :: pq_loop false [] rest
  | true, acc, '\\' :: [] => [(replace_esc_quote ('\\' :: acc).reverse).asString]
  | true, acc, '\\' :: d :: rest2 => pq_loop true (d :: '\\' :: acc) rest2
  | true, acc, c :: rest => pq_loop true (c :: acc) rest

/-- Embeds `_parse_quoted_fields` of `src/cdn_log_parser.py` on character
lists. -/
def parse_quoted_fields_chars (l : List Char) : List String :=
  pq_loop false [] l

/-- Embeds `_parse_quoted_fields` of `src/cdn_log_parser.py`. -/
def parse_quoted_fields (s : String) : List String :=
  parse_quoted_fields_chars s.data

/-- Holds when a field scan started just after an opening quote runs to end of
input without meeting an unescaped closing quote (the unterminated case of the
tokenizer). -/
def no_close : List Char → Bool
  | [] => true
  | '"' :: _ => false
  | '\\' :: [] => true
  | '\\' :: _ :: rest2 => no_close rest2
  | _ :: rest => no_close rest

/-- State machine deciding whether the tokenizer's scan ends outside a field:
mode `false` is the outer scan, mode `true` the inner field capture; ending
the input inside a field means some opened field is unterminated. -/
def balanced_loop : Bool → List Char → Bool
  | false, [] => true
  | true, [] => false
  | false, '"' :: rest => balanced_loop true rest
  | false, _ :: rest => balanced_loop false rest
  | true, '"' :: rest => balanced_loop false rest
  | true, '\\' :: [] => false
  | true, '\\' :: _ :: rest2 => balanced_loop true rest2
  | true, _ :: rest => balanced_loop true rest

/-- Holds when the tokenizer's scan of the given text ends outside a field,
i.e. every field opened in it is closed. -/
def balanced_chars (l : List Char) : Bool :=
  balanced_loop false l

/-- Embeds `FIELD_NAMES` of `src/cdn_log_parser.py` (G-Core log field order). -/
def FIELD_NAMES : List String :=
  ["remote_addr", "_", "remote_user", "time_local", "request", "status",
   "body_bytes_sent", "http_referer", "http_user_agent", "bytes_sent",
   "edgename", "scheme", "host", "request_time", "upstream_response_time",
   "request_length", "http_range", "responding_node", "upstream_cache_status",
   "upstream_response_length", "upstream_addr", "gcdn_api_client_id",
   "gcdn_api_resource_id", "uid_got", "uid_set", "geoip_country_code",
   "geoip_city", "shield_type", "server_addr", "server_port", "upstream_status",
   "_2", "upstream_connect_time", "upstream_header_time", "shard_addr",
   "geoip2_data_asnumber", "connection", "connection_requests",
   "http_traceparent", "http_x_forwarded_proto", "gcdn_internal_status_code",
   "ssl_cipher", "ssl_session_id", "ssl_session_reused",
   "sent_http_content_type", "tcpinfo_rtt", "server_country_code",
   "gcdn_tcpinfo_snd_cwnd", "gcdn_tcpinfo_total_retrans", "gcdn_rule_id"]

/-- Embeds the `ParsedCDNLog` dataclass of `src/cdn_log_parser.py`. -/
structure ParsedCDNLog where
  raw : String
  remote_addr : String
  time_local : String
  request : String
  method : String
  path : String
  status : String
  body_bytes_sent : String
  http_referer : String
  http_user_agent : String
  bytes_sent : String
  edgename : String
  scheme : String
  host : String
  request_time : String
  upstream_cache_status : String
  geoip_country_code : String
  sent_http_content_type : String
  attributes : List (String × String)
  deriving Inhabited, DecidableEq

/-- Embeds `_strip_brackets` of `src/cdn_log_parser.py`
(`s.strip("[]") if s else ""`). -/
def strip_brackets (s : String) : String :=
  if s = "" then ""
  else (((s.data.dropWhile bracket_char).reverse.dropWhile bracket_char).reverse).asString

/-- Model of Python `request.split(None, 2)`: whitespace split with at most
two splits, the remainder kept verbatim after skipping its leading
whitespace. -/
def py_split_ws2 (l : List Char) : List (List Char) :=
  let l1 := l.dropWhile py_space
  if l1.isEmpty then []
  else
    let w1 := l1.takeWhile fun c => !py_space c
    let r1 := (l1.dropWhile fun c => !py_space c).dropWhile py_space
    if r1.isEmpty then [w1]
    else
      let w2 := r1.takeWhile fun c => !py_space c
      let r2 := (r1.dropWhile fun c => !py_space c).dropWhile py_space
      if r2.isEmpty then [w1, w2] else [w1, w2, r2]

/-- Embeds `parse_request` of `src/cdn_log_parser.py`: split `$request` into
method and path. -/
def parse_request (request : String) : String × String :=
  match py_split_ws2 request.data with
  | p0 :: p1 :: _ => (p0.asString, p1.asString)
  | [p0] => (p0.asString, "")
  | [] => ("", "")

/-- First conjunct of the request-field test of `_find_request_field`: the
stripped field starts with one of the five known HTTP method names followed
by a space. -/
def request_method_start (s : String) : Bool :=
  str_starts s "GET " || str_starts s "POST " || str_starts s "HEAD " ||
    str_starts s "PUT " || str_starts s "OPTIONS "

/-- Full request-field test of `_find_request_field`: method start, plus
`' ' in s[4:].strip()` and `'/' in s` exactly as the code checks them. -/
def request_like (s : String) : Bool :=
  request_method_start s && (strip_ws (s.data.drop 4)).contains ' ' && s.data.contains '/'

/-- Embeds `_find_request_field` of `src/cdn_log_parser.py`: the first
stripped field passing `request_like`, else the empty string. -/
def find_request_field : List String → String
  | [] => ""
  | f :: rest =>
    if request_like (py_strip f) then py_strip f else find_request_field rest

/-- Embeds `_find_cmcd_raw_field` of `src/cdn_log_parser.py`: the first
stripped field starting with `CMCD=` or `cmcd=`, else the empty string. -/
def find_cmcd_raw_field : List String → String
  | [] => ""
  | f :: rest =>
    if str_starts (py_strip f) "CMCD=" || str_starts (py_strip f) "cmcd=" then py_strip f
    else find_cmcd_raw_field rest

/-- Value stored for a present column: the stripped token, defaulting to the
dash placeholder when the stripped token is empty (`fields[idx].strip() or "-"`). -/
def strip_or_dash (f : String) : String :=
  if py_strip f = "" then "-" else py_strip f

/-- Embeds the attribute-building loop of `parse_gcore_log_line`: walk
`FIELD_NAMES` by position, skip placeholder names starting with `_`, and store
`cdn.<name> := fields[idx].strip() or "-"` for every position inside the token
sequence. -/
def column_attrs (fields : List String) : List (String × String) :=
  FIELD_NAMES.enum.foldl
    (fun d p =>
      if str_starts p.2 "_" then d
      else
        match fields.get? p.1 with
        | some f => dictInsert d ("cdn." ++ p.2) (strip_or_dash f)
        | none => d)
    []

/-- Embeds the local `get` of `parse_gcore_log_line` at its default argument:
`fields[idx].strip() or ""` for an in-range index, `""` otherwise. -/
def field_get (fields : List String) (idx : Nat) : String :=
  py_strip (fields.getD idx "")

/-- Embeds the CMCD lookup of `parse_gcore_log_line`: CMCD attributes from the
path's query string, falling back to a raw `CMCD=` field when the path
yielded none. -/
def cmcd_attrs_for (fields : List String) (path : String) : List (String × String) :=
  let c := parse_cmcd_from_path path
  if c = [] then
    if find_cmcd_raw_field fields = "" then c
    else parse_cmcd_from_query_string (find_cmcd_raw_field fields)
  else c

/-- Embeds the CMCD merge loop of `parse_gcore_log_line`: merge each extracted
metrics entry whose value is non-empty into the attribute mapping. -/
def merge_cmcd (d : List (String × String)) (cm : List (String × String)) :
    List (String × String) :=
  cm.foldl (fun d kv => if kv.2 = "" then d else dictInsert d kv.1 kv.2) d

/-- Record built by `parse_gcore_log_line` once the line passed both guards;
`line` is already stripped and `fields` is its tokenization. -/
def build_record (line : String) (fields : List String) : ParsedCDNLog :=
  let request :=
    if find_request_field fields = "" then field_get fields 4 else find_request_field fields
  { raw := line
    remote_addr := field_get fields 0
    time_local := strip_brackets (field_get fields 3)
    request := request
    method := (parse_request request).1
    path := (parse_request request).2
    status := field_get fields 5
    body_bytes_sent := field_get fields 6
    http_referer := field_get fields 7
    http_user_agent := field_get fields 8
    bytes_sent := field_get fields 9
    edgename := strip_brackets (field_get fields 10)
    scheme := field_get fields 11
    host := field_get fields 12
    request_time := field_get fields 13
    upstream_cache_status := field_get fields 18
    geoip_country_code := field_get fields 25
    sent_http_content_type := field_get fields 39
    attributes :=
      merge_cmcd (column_attrs fields)
        (cmcd_attrs_for fields (parse_request request).2) }

/-- Embeds `parse_gcore_log_line` of `src/cdn_log_parser.py`: strip the line,
reject an empty line or one tokenizing to fewer than 10 fields, else build the
record. -/
def parse_gcore_log_line (line : String) : Option ParsedCDNLog :=
  if py_strip line = "" then none
  else if (parse_quoted_fields (py_strip line)).length < 10 then none
  else some (build_record (py_strip line) (parse_quoted_fields (py_strip line)))

/-- The five HTTP method names known to `_find_request_field`. -/
def HTTP_METHODS : List String :=
  ["GET", "POST", "HEAD", "PUT", "OPTIONS"]

/-- Whitespace-separated words of a character list (model of Python
`str.split()` with no arguments). Used to state the spec's reading of the
request heuristic. -/
def ws_words (l : List Char) : List (List Char) :=
  (l.splitOnP py_space).filter fun w => !w.isEmpty

/-- Modelled from the spec's words for the request heuristic (not from the
code): the token begins with a known HTTP method name followed by a space, and
the remainder after the method contains both a slash and additional
whitespace-separated content (at least two whitespace-separated words). -/
def spec_request_like (s : String) : Bool :=
  HTTP_METHODS.any fun m =>
    starts_with s.data (m.data ++ [' ']) &&
    ((s.data.drop (m.data.length + 1)).contains '/' &&
      2 ≤ (ws_words (s.data.drop (m.data.length + 1))).length)

/-- Request text selected by scanning for the first stripped token passing the
code's `request_like` test, falling back to the fixed-position (index 4)
value. Used to state the amended request-precedence claim. -/
def req_choice (fields : List String) : String :=
  match fields.find? (fun f => request_like (py_strip f)) with
  | some f => py_strip f
  | none => py_strip (fields.getD 4 "")

/-- The exact marker test of `_find_cmcd_raw_field`: the stripped token starts
with `CMCD=` or `cmcd=` (no other casings). -/
def cmcd_marker (s : String) : Bool :=
  str_starts s "CMCD=" || str_starts s "cmcd="

/-- Raw CMCD token selected by scanning for the first stripped token passing
`cmcd_marker`, else the empty string. Used to state the amended raw-CMCD
fallback claim. -/
def cmcd_choice (fields : List String) : String :=
  match fields.find? (fun f => cmcd_marker (py_strip f)) with
  | some f => py_strip f
  | none => ""

/-! Basic lemmas about the string and dictionary models. -/

theorem starts_with_append (p t : List Char) : starts_with (p ++ t) p = true := by
  induction p with
  | nil => cases t <;> rfl
  | cons c cs ih => simp [starts_with, ih]

theorem starts_with_decomp :
    ∀ (l p : List Char), starts_with l p = true → l = p ++ l.drop p.length := by
  intro l p
  induction p generalizing l with
  | nil => simp [starts_with]
  | cons c cs ih =>
    cases l with
    | nil => simp [starts_with]
    | cons a l' =>
      simp only [starts_with, Bool.and_eq_true, decide_eq_true_eq, List.length_cons,
        List.cons_append, List.drop_succ_cons]
      rintro ⟨rfl, h⟩
      exact congrArg (List.cons a) (ih l' h)

theorem starts_with_ne_nil (l : List Char) (c : Char) (p : List Char)
    (h : starts_with l (c :: p) = true) : l ≠ [] := by
  intro he
  subst he
  simp [starts_with] at h

theorem dict_get_insert_self (d : List (String × String)) (k v : String) :
    dict_get (dictInsert d k v) k = some v := by
  induction d with
  | nil => simp [dictInsert, dict_get]
  | cons kv rest ih =>
    obtain ⟨k', v'⟩ := kv
    by_cases h : k' = k
    · simp [dictInsert, dict_get, h]
    · simp [dictInsert, dict_get, h, ih]

theorem dict_get_insert_ne (d : List (String × String)) (ki k v : String) (h : ki ≠ k) :
    dict_get (dictInsert d ki v) k = dict_get d k := by
  induction d with
  | nil => simp [dictInsert, dict_get, h]
  | cons kv rest ih =>
    obtain ⟨k', v'⟩ := kv
    by_cases h' : k' = ki
    · subst h'
      simp [dictInsert, dict_get, h]
    · simp only [dictInsert, if_neg h']
      by_cases h'' : k' = k
      · simp [dict_get, h'']
      · simp [dict_get, h'', ih]

theorem mem_dictInsert (d : List (String × String)) (k v ki vi : String)
    (h : (k, v) ∈ dictInsert d ki vi) : (k, v) ∈ d ∨ v = vi := by
  induction d with
  | nil =>
    simp only [dictInsert, List.mem_singleton, Prod.mk.injEq] at h
    exact Or.inr h.2
  | cons kv rest ih =>
    obtain ⟨k', v'⟩ := kv
    by_cases h' : k' = ki
    · simp only [dictInsert, if_pos h'] at h
      rcases List.mem_cons.1 h with h | h
      · exact Or.inr (Prod.mk.injEq .. ▸ h).2
      · exact Or.inl (List.mem_cons_of_mem _ h)
    · simp only [dictInsert, if_neg h'] at h
      rcases List.mem_cons.1 h with h | h
      · exact Or.inl (List.mem_cons.2 (Or.inl h))
      · rcases ih h with h | h
        · exact Or.inl (List.mem_cons_of_mem _ h)
        · exact Or.inr h

theorem qdict_get_mem (d : List (String × List String)) (k : String) (vs : List String)
    (h : qdict_get d k = some vs) : (k, vs) ∈ d := by
  induction d with
  | nil => simp [qdict_get] at h
  | cons kv rest ih =>
    obtain ⟨k', vs'⟩ := kv
    by_cases h' : k' = k
    · subst h'
      simp only [qdict_get, if_true, eq_self_iff_true, Option.some.injEq] at h
      subst h
      exact List.mem_cons_self _ _
    · simp only [qdict_get, if_neg h'] at h
      exact List.mem_cons_of_mem _ (ih h)

theorem nodup_snoc (l : List String) (a : String) (h : l.Nodup) (ha : a ∉ l) :
    (l ++ [a]).Nodup := by
  induction l with
  | nil => simp
  | cons b t ih =>
    simp only [List.nodup_cons] at h
    simp only [List.mem_cons, not_or] at ha
    simp only [List.cons_append, List.nodup_cons, List.mem_append, List.mem_singleton]
    exact ⟨by rintro (h' | rfl); exact h.1 h'; exact ha.1 rfl,
      ih h.2 ha.2⟩

/-! Lemmas about the decoder's structure. -/

theorem parse_some_eq (line : String) (r : ParsedCDNLog)
    (h : parse_gcore_log_line line = some r) :
    r = build_record (py_strip line) (parse_quoted_fields (py_strip line)) := by
  by_cases h1 : py_strip line = ""
  · simp [parse_gcore_log_line, h1] at h
  · by_cases h2 : (parse_quoted_fields (py_strip line)).length < 10
    · simp [parse_gcore_log_line, h1, h2] at h
    · simp only [parse_gcore_log_line, if_neg h1, if_neg h2, Option.some.injEq] at h
      exact h.symm

theorem request_like_ne_empty (s : String) (h : request_like s = true) : s ≠ "" := by
  intro he
  subst he
  simp [request_like, request_method_start, str_starts, starts_with] at h

theorem cmcd_marker_ne_empty (s : String) (h : cmcd_marker s = true) : s ≠ "" := by
  intro he
  subst he
  simp [cmcd_marker, str_starts, starts_with] at h

theorem find_request_field_eq (fields : List String) :
    find_request_field fields =
      (match fields.find? (fun f => request_like (py_strip f)) with
       | some f => py_strip f
       | none => "") := by
  induction fields with
  | nil => rfl
  | cons f rest ih =>
    cases hrl : request_like (py_strip f) with
    | true =>
      simp [find_request_field, List.find?, hrl]
    | false =>
      simp only [find_request_field, List.find?, hrl, if_false, Bool.false_eq_true]
      exact ih

theorem find_cmcd_raw_field_eq (fields : List String) :
    find_cmcd_raw_field fields = cmcd_choice fields := by
  induction fields with
  | nil => rfl
  | cons f rest ih =>
    cases hm : cmcd_marker (py_strip f) with
    | true =>
      have hm' := hm
      simp only [cmcd_marker] at hm'
      simp [cmcd_choice, find_cmcd_raw_field, List.find?, hm, hm']
    | false =>
      have hm' := hm
      simp only [cmcd_marker] at hm'
      simp only [cmcd_choice, find_cmcd_raw_field, List.find?, hm, hm', if_false,
        Bool.false_eq_true]
      simpa [cmcd_choice] using ih

/-! Value lemmas for the attribute mapping. -/

theorem strip_or_dash_ne (f : String) : strip_or_dash f ≠ "" := by
  unfold strip_or_dash
  by_cases h : py_strip f = ""
  · simp [h]
  · simp only [if_neg h]
    exact h

theorem column_attrs_values (fields : List String) (k v : String)
    (h : (k, v) ∈ column_attrs fields) : v ≠ "" := by
  have H : ∀ (ps : List (Nat × String)) (d : List (String × String)),
      (∀ kv ∈ d, kv.2 ≠ "") →
      ∀ kv ∈ ps.foldl
        (fun d p =>
          if str_starts p.2 "_" then d
          else
            match fields.get? p.1 with
            | some f => dictInsert d ("cdn." ++ p.2) (strip_or_dash f)
            | none => d)
        d, kv.2 ≠ "" := by
    intro ps
    induction ps with
    | nil =>
      intro d hd kv hkv
      exact hd kv hkv
    | cons p rest ih =>
      intro d hd kv hkv
      simp only [List.foldl_cons] at hkv
      refine ih _ ?_ kv hkv
      intro kv' hkv'
      by_cases hs : str_starts p.2 "_" = true
      · rw [if_pos hs] at hkv'
        exact hd _ hkv'
      · rw [if_neg hs] at hkv'
        cases hg : fields.get? p.1 with
        | none =>
          rw [hg] at hkv'
          exact hd _ hkv'
        | some f =>
          rw [hg] at hkv'
          obtain ⟨k', v'⟩ := kv'
          rcases mem_dictInsert _ _ _ _ _ hkv' with hm | hm
          · exact hd _ hm
          · simpa [hm] using strip_or_dash_ne f
  exact H FIELD_NAMES.enum [] (by simp) (k, v) (by simpa [column_attrs] using h)

theorem merge_cmcd_values (cm : List (String × String)) :
    ∀ d, (∀ kv ∈ d, kv.2 ≠ "") → ∀ kv ∈ merge_cmcd d cm, kv.2 ≠ "" := by
  induction cm with
  | nil =>
    intro d hd kv h
    simp only [merge_cmcd, List.foldl_nil] at h
    exact hd kv h
  | cons p rest ih =>
    intro d hd kv h
    simp only [merge_cmcd, List.foldl_cons] at h
    refine ih _ ?_ kv (by simpa [merge_cmcd] using h)
    intro kv' h'
    by_cases hp : p.2 = ""
    · rw [if_pos hp] at h'
      exact hd _ h'
    · rw [if_neg hp] at h'
      obtain ⟨k', v'⟩ := kv'
      rcases mem_dictInsert _ _ _ _ _ h' with hm | hm
      · exact hd _ hm
      · simpa [hm] using hp

/-! Claim theorems. -/

/-- C1: for every input line whose trimmed text is empty, or whose
tokenization yields fewer than 10 fields, `parse_gcore_log_line` returns the
"not a record" sentinel `none`, regardless of the line's content. -/
theorem c1_minimum_field_rejection (line : String)
    (h : py_strip line = "" ∨ (parse_quoted_fields (py_strip line)).length < 10) :
    parse_gcore_log_line line = none := by
  rcases h with h | h
  · simp [parse_gcore_log_line, h]
  · by_cases h1 : py_strip line = ""
    · simp [parse_gcore_log_line, h1]
    · simp [parse_gcore_log_line, h1, h]

/-- Witness for C1 at the concrete line `x` (tokenizes to no fields). -/
theorem c1_minimum_field_rejection_witness :
    (py_strip "x" = "" ∨ (parse_quoted_fields (py_strip "x")).length < 10) ∧
      parse_gcore_log_line "x" = none :=
  ⟨Or.inr (by decide), c1_minimum_field_rejection "x" (Or.inr (by decide))⟩

/-- C4: the metrics extractor applied to `cmcd=br=3200,bl=12500&cmcd.ot=v`
returns exactly the mapping `cmcd.br = 3200, cmcd.bl = 12500, cmcd.ot = v`:
both the combined form and the prefixed form are decoded and merged. -/
theorem c4_dual_form_merge :
    parse_cmcd_from_query_string "cmcd=br=3200,bl=12500&cmcd.ot=v" =
      [("cmcd.br", "3200"), ("cmcd.bl", "12500"), ("cmcd.ot", "v")] := by decide

/-- C10: the prefixed-form pass matches its name prefix case-sensitively,
unlike the combined-form name: for `CMCD.br=3200` the extractor returns the
empty mapping — the combined pass requires the bare name to lowercase to
`cmcd`, and the prefixed pass requires the lowercase prefix `cmcd.`, so
neither extracts anything. -/
theorem c10_prefixed_case_sensitive :
    parse_cmcd_from_query_string "CMCD.br=3200" = [] := by decide

/-- C7 counterexample: on a line carrying leading and trailing whitespace the
decoder returns a record, but its `raw` field is the stripped line, which
differs from the original line text — so `raw` is not the line verbatim. -/
theorem c7_counterexample :
    (parse_gcore_log_line " \"a\" \"b\" \"c\" \"d\" \"e\" \"f\" \"g\" \"h\" \"i\" \"j\" ").map
        ParsedCDNLog.raw =
      some "\"a\" \"b\" \"c\" \"d\" \"e\" \"f\" \"g\" \"h\" \"i\" \"j\"" ∧
    (" \"a\" \"b\" \"c\" \"d\" \"e\" \"f\" \"g\" \"h\" \"i\" \"j\" " : String) ≠
      "\"a\" \"b\" \"c\" \"d\" \"e\" \"f\" \"g\" \"h\" \"i\" \"j\"" := by decide

/-- C7 amended: for every input line on which the decoder returns a record,
the record's `raw` field — used as the exported event body — equals the line
with its leading and trailing whitespace stripped, verbatim otherwise. -/
theorem c7_amended_raw_is_stripped (line : String) (r : ParsedCDNLog)
    (h : parse_gcore_log_line line = some r) : r.raw = py_strip line := by
  rw [parse_some_eq line r h]
  simp [build_record]

/-- Witness for the amended C7 at a concrete line with surrounding whitespace. -/
theorem c7_amended_raw_is_stripped_witness :
    (Option.getD
        (parse_gcore_log_line " \"a\" \"b\" \"c\" \"d\" \"e\" \"f\" \"g\" \"h\" \"i\" \"j\" ")
        default).raw =
      py_strip " \"a\" \"b\" \"c\" \"d\" \"e\" \"f\" \"g\" \"h\" \"i\" \"j\" " :=
  c7_amended_raw_is_stripped _ _ (by decide)

/-- C3 counterexample: on this line the token `OPTIONS /abc` (no protocol
part, so its remainder after the method has no additional whitespace-separated
content) precedes `GET /x HTTP/1.1`; the first token matching the claim's
request shape is `GET /x HTTP/1.1`, which would give method `GET` and path
`/x`, but the decoder extracts method `OPTIONS` and path `/abc` because its
test checks the text after the first four characters instead of the remainder
after the method. -/
theorem c3_counterexample :
    (parse_gcore_log_line
          "\"a\" \"b\" \"c\" \"d\" \"OPTIONS /abc\" \"GET /x HTTP/1.1\" \"g\" \"h\" \"i\" \"j\"").map
        ParsedCDNLog.method = some "OPTIONS" ∧
    (parse_gcore_log_line
          "\"a\" \"b\" \"c\" \"d\" \"OPTIONS /abc\" \"GET /x HTTP/1.1\" \"g\" \"h\" \"i\" \"j\"").map
        ParsedCDNLog.path = some "/abc" ∧
    ((parse_quoted_fields
          (py_strip
            "\"a\" \"b\" \"c\" \"d\" \"OPTIONS /abc\" \"GET /x HTTP/1.1\" \"g\" \"h\" \"i\" \"j\"")).find?
        fun f => spec_request_like (py_strip f)) = some "GET /x HTTP/1.1" ∧
    parse_request "GET /x HTTP/1.1" = ("GET", "/x") := by decide

/-- C3 amended: for every line on which the decoder returns a record, the
record's request, method and path come from the first stripped token passing
the code's request test — it begins with one of `GET `, `POST `, `HEAD `,
`PUT `, `OPTIONS `, the token text after its first four characters trims to
something containing a space, and the token contains a slash — and if no
token passes, from the fixed-position (index 4) value. -/
theorem c3_amended_request_precedence (line : String) (r : ParsedCDNLog)
    (h : parse_gcore_log_line line = some r) :
    r.request = req_choice (parse_quoted_fields (py_strip line)) ∧
    r.method = (parse_request (req_choice (parse_quoted_fields (py_strip line)))).1 ∧
    r.path = (parse_request (req_choice (parse_quoted_fields (py_strip line)))).2 := by
  rw [parse_some_eq line r h]
  generalize parse_quoted_fields (py_strip line) = fields
  have hreq : (if find_request_field fields = "" then field_get fields 4
      else find_request_field fields) = req_choice fields := by
    rw [find_request_field_eq]
    cases hf : fields.find? (fun f => request_like (py_strip f)) with
    | none => simp [req_choice, hf, field_get]
    | some f =>
      have hlike : request_like (py_strip f) = true := by
        simpa using List.find?_some hf
      have hne : py_strip f ≠ "" := request_like_ne_empty _ hlike
      simp [req_choice, hf, hne]
  refine ⟨?_, ?_, ?_⟩ <;> simp [build_record, hreq]

/-- Witness for the amended C3 at a concrete line whose request token is out
of position. -/
theorem c3_amended_request_precedence_witness :
    (Option.getD
        (parse_gcore_log_line
          "\"a\" \"b\" \"c\" \"d\" \"e\" \"GET /x HTTP/1.1\" \"g\" \"h\" \"i\" \"j\"")
        default).request =
      req_choice
        (parse_quoted_fields
          (py_strip "\"a\" \"b\" \"c\" \"d\" \"e\" \"GET /x HTTP/1.1\" \"g\" \"h\" \"i\" \"j\"")) ∧
    (Option.getD
        (parse_gcore_log_line
          "\"a\" \"b\" \"c\" \"d\" \"e\" \"GET /x HTTP/1.1\" \"g\" \"h\" \"i\" \"j\"")
        default).method =
      (parse_request
        (req_choice
          (parse_quoted_fields
            (py_strip
              "\"a\" \"b\" \"c\" \"d\" \"e\" \"GET /x HTTP/1.1\" \"g\" \"h\" \"i\" \"j\"")))).1 ∧
    (Option.getD
        (parse_gcore_log_line
          "\"a\" \"b\" \"c\" \"d\" \"e\" \"GET /x HTTP/1.1\" \"g\" \"h\" \"i\" \"j\"")
        default).path =
      (parse_request
        (req_choice
          (parse_quoted_fields
            (py_strip
              "\"a\" \"b\" \"c\" \"d\" \"e\" \"GET /x HTTP/1.1\" \"g\" \"h\" \"i\" \"j\"")))).2 :=
  c3_amended_request_precedence _ _ (by decide)

/-- C8 counterexample: on this line the request path has no query, the only
metrics-marker token is `Cmcd=br=3200` (mixed case), and the decoder's record
carries no `cmcd.br` attribute — `_find_cmcd_raw_field` rejects the token —
although feeding that token to the metrics extractor would produce
`cmcd.br = 3200`. Mixed casings of the marker therefore do not qualify. -/
theorem c8_counterexample :
    (parse_gcore_log_line
          "\"a\" \"b\" \"c\" \"d\" \"GET /seg HTTP/1.1\" \"200\" \"1\" \"-\" \"ua\" \"Cmcd=br=3200\"").map
        (fun r => dict_get r.attributes "cmcd.br") = some none ∧
    find_cmcd_raw_field ["Cmcd=br=3200"] = "" ∧
    parse_cmcd_from_query_string "Cmcd=br=3200" = [("cmcd.br", "3200")] := by decide

/-- C8 amended: for every token sequence and chosen path whose query yields no
metrics keys, the decoder's raw-marker search selects the first stripped token
starting with exactly `CMCD=` or `cmcd=` (matched case-sensitively; no other
casings qualify), and the CMCD attributes are those of the metrics extractor
applied to that token's full stripped text (the empty selection feeding the
extractor's empty result). -/
theorem c8_amended_marker_exact (fields : List String) (path : String)
    (h : parse_cmcd_from_path path = []) :
    find_cmcd_raw_field fields = cmcd_choice fields ∧
    cmcd_attrs_for fields path = parse_cmcd_from_query_string (cmcd_choice fields) := by
  refine ⟨find_cmcd_raw_field_eq fields, ?_⟩
  simp only [cmcd_attrs_for, h, if_pos rfl]
  rw [find_cmcd_raw_field_eq]
  by_cases hc : cmcd_choice fields = ""
  · rw [if_pos hc, hc]
    rfl
  · simp [hc]

/-- Witness for the amended C8 at a concrete token sequence and path. -/
theorem c8_amended_marker_exact_witness :
    parse_cmcd_from_path "/a" = [] ∧
    (find_cmcd_raw_field ["x", "cmcd=br=1"] = cmcd_choice ["x", "cmcd=br=1"] ∧
      cmcd_attrs_for ["x", "cmcd=br=1"] "/a" =
        parse_cmcd_from_query_string (cmcd_choice ["x", "cmcd=br=1"])) :=
  ⟨by decide, c8_amended_marker_exact ["x", "cmcd=br=1"] "/a" (by decide)⟩

/-- C9: for every input line on which `parse_gcore_log_line` returns a record,
every value in the record's attribute mapping is a non-empty string: each
column attribute is the trimmed token defaulting to the placeholder `-` when
the trimmed token is empty, and a metrics entry is merged only when its
extracted value is non-empty. -/
theorem c9_attribute_values_nonempty (line : String) (r : ParsedCDNLog) (k v : String)
    (h : parse_gcore_log_line line = some r) (hmem : (k, v) ∈ r.attributes) : v ≠ "" := by
  rw [parse_some_eq line r h] at hmem
  simp only [build_record] at hmem
  exact merge_cmcd_values _ _ (fun kv hkv => column_attrs_values _ kv.1 kv.2 hkv) (k, v) hmem

/-- Witness for C9 at a concrete line and attribute entry. -/
theorem c9_attribute_values_nonempty_witness : ("a" : String) ≠ "" :=
  c9_attribute_values_nonempty
    "\"a\" \"b\" \"c\" \"d\" \"e\" \"f\" \"g\" \"h\" \"i\" \"j\""
    (Option.getD
      (parse_gcore_log_line "\"a\" \"b\" \"c\" \"d\" \"e\" \"f\" \"g\" \"h\" \"i\" \"j\"")
      default)
    "cdn.remote_addr" "a" (by decide) (by decide)

/-- C2: for every input line of exactly 12 quoted fields whose 4th field is
the bracketed timestamp and whose 5th field is the request
`GET /vod/seg.m4s?cmcd=ot=v,br=3200 HTTP/1.1`, with the earlier fields not
starting with an HTTP method name, the decoder returns a record with
`time_local` bracket-stripped, method `GET`, the full path with query, and
CMCD attributes `cmcd.ot = v` and `cmcd.br = 3200`. -/
theorem c2_scenario (line x0 x1 x2 x5 x6 x7 x8 x9 x10 x11 : String)
    (hfs : parse_quoted_fields (py_strip line) =
      [x0, x1, x2, "[26/Apr/2019:09:47:40 +0000]",
       "GET /vod/seg.m4s?cmcd=ot=v,br=3200 HTTP/1.1", x5, x6, x7, x8, x9, x10, x11])
    (h0 : request_method_start (py_strip x0) = false)
    (h1 : request_method_start (py_strip x1) = false)
    (h2 : request_method_start (py_strip x2) = false) :
    ∃ r, parse_gcore_log_line line = some r ∧
      r.time_local = "26/Apr/2019:09:47:40 +0000" ∧
      r.method = "GET" ∧
      r.path = "/vod/seg.m4s?cmcd=ot=v,br=3200" ∧
      dict_get r.attributes "cmcd.ot" = some "v" ∧
      dict_get r.attributes "cmcd.br" = some "3200" := by
  have hne : py_strip line ≠ "" := by
    intro he
    rw [he] at hfs
    exact List.noConfusion (hfs.symm.trans (rfl : parse_quoted_fields "" = []))
  have hlen : ¬ (parse_quoted_fields (py_strip line)).length < 10 := by
    rw [hfs]
    simp
  have e0 : request_like (py_strip x0) = false := by simp [request_like, h0]
  have e1 : request_like (py_strip x1) = false := by simp [request_like, h1]
  have e2 : request_like (py_strip x2) = false := by simp [request_like, h2]
  have e3 : request_like (py_strip "[26/Apr/2019:09:47:40 +0000]") = false := by decide
  have e4 : request_like (py_strip "GET /vod/seg.m4s?cmcd=ot=v,br=3200 HTTP/1.1") = true := by
    decide
  have e5 : py_strip "GET /vod/seg.m4s?cmcd=ot=v,br=3200 HTTP/1.1" =
      "GET /vod/seg.m4s?cmcd=ot=v,br=3200 HTTP/1.1" := by decide
  have e4' : request_like "GET /vod/seg.m4s?cmcd=ot=v,br=3200 HTTP/1.1" = true := by decide
  have hfind : find_request_field
      [x0, x1, x2, "[26/Apr/2019:09:47:40 +0000]",
       "GET /vod/seg.m4s?cmcd=ot=v,br=3200 HTTP/1.1", x5, x6, x7, x8, x9, x10, x11] =
      "GET /vod/seg.m4s?cmcd=ot=v,br=3200 HTTP/1.1" := by
    simp [find_request_field, e0, e1, e2, e3, e4, e4', e5]
  have hreq : (if find_request_field
        [x0, x1, x2, "[26/Apr/2019:09:47:40 +0000]",
         "GET /vod/seg.m4s?cmcd=ot=v,br=3200 HTTP/1.1", x5, x6, x7, x8, x9, x10, x11] = ""
      then field_get
        [x0, x1, x2, "[26/Apr/2019:09:47:40 +0000]",
         "GET /vod/seg.m4s?cmcd=ot=v,br=3200 HTTP/1.1", x5, x6, x7, x8, x9, x10, x11] 4
      else find_request_field
        [x0, x1, x2, "[26/Apr/2019:09:47:40 +0000]",
         "GET /vod/seg.m4s?cmcd=ot=v,br=3200 HTTP/1.1", x5, x6, x7, x8, x9, x10, x11]) =
      "GET /vod/seg.m4s?cmcd=ot=v,br=3200 HTTP/1.1" := by
    rw [hfind,
      if_neg (by decide : ¬("GET /vod/seg.m4s?cmcd=ot=v,br=3200 HTTP/1.1" : String) = "")]
  have hcm : cmcd_attrs_for
      [x0, x1, x2, "[26/Apr/2019:09:47:40 +0000]",
       "GET /vod/seg.m4s?cmcd=ot=v,br=3200 HTTP/1.1", x5, x6, x7, x8, x9, x10, x11]
      (parse_request "GET /vod/seg.m4s?cmcd=ot=v,br=3200 HTTP/1.1").2 =
      [("cmcd.ot", "v"), ("cmcd.br", "3200")] := by
    have hp : parse_cmcd_from_path
        (parse_request "GET /vod/seg.m4s?cmcd=ot=v,br=3200 HTTP/1.1").2 =
        [("cmcd.ot", "v"), ("cmcd.br", "3200")] := by decide
    simp [cmcd_attrs_for, hp]
  have hmg : ∀ A : List (String × String),
      merge_cmcd A [("cmcd.ot", "v"), ("cmcd.br", "3200")] =
        dictInsert (dictInsert A "cmcd.ot" "v") "cmcd.br" "3200" := by
    intro A
    simp only [merge_cmcd, List.foldl_cons, List.foldl_nil,
      if_neg (by decide : ¬("v" : String) = ""),
      if_neg (by decide : ¬("3200" : String) = "")]
  refine ⟨build_record (py_strip line)
      [x0, x1, x2, "[26/Apr/2019:09:47:40 +0000]",
       "GET /vod/seg.m4s?cmcd=ot=v,br=3200 HTTP/1.1", x5, x6, x7, x8, x9, x10, x11],
    ?_, ?_, ?_, ?_, ?_, ?_⟩
  · simp only [parse_gcore_log_line, if_neg hne, hfs]
    simp
  · simp only [build_record]
    have hf3 : field_get
        [x0, x1, x2, "[26/Apr/2019:09:47:40 +0000]",
         "GET /vod/seg.m4s?cmcd=ot=v,br=3200 HTTP/1.1", x5, x6, x7, x8, x9, x10, x11] 3 =
        "[26/Apr/2019:09:47:40 +0000]" := by
      simp only [field_get, List.getD_cons_succ, List.getD_cons_zero]
      decide
    rw [hf3]
    decide
  · simp only [build_record, hreq]
    decide
  · simp only [build_record, hreq]
    decide
  · simp only [build_record, hreq, hcm, hmg]
    rw [dict_get_insert_ne _ _ _ _ (by decide : ("cmcd.br" : String) ≠ "cmcd.ot"),
      dict_get_insert_self]
  · simp only [build_record, hreq, hcm, hmg]
    rw [dict_get_insert_self]

/-- Witness for C2 at a concrete 12-field line. -/
theorem c2_scenario_witness :
    ∃ r, parse_gcore_log_line
        "\"1.2.3.4\" \"-\" \"-\" \"[26/Apr/2019:09:47:40 +0000]\" \"GET /vod/seg.m4s?cmcd=ot=v,br=3200 HTTP/1.1\" \"200\" \"100\" \"-\" \"ua\" \"100\" \"edge\" \"https\"" =
        some r ∧
      r.time_local = "26/Apr/2019:09:47:40 +0000" ∧
      r.method = "GET" ∧
      r.path = "/vod/seg.m4s?cmcd=ot=v,br=3200" ∧
      dict_get r.attributes "cmcd.ot" = some "v" ∧
      dict_get r.attributes "cmcd.br" = some "3200" :=
  c2_scenario
    "\"1.2.3.4\" \"-\" \"-\" \"[26/Apr/2019:09:47:40 +0000]\" \"GET /vod/seg.m4s?cmcd=ot=v,br=3200 HTTP/1.1\" \"200\" \"100\" \"-\" \"ua\" \"100\" \"edge\" \"https\""
    "1.2.3.4" "-" "-" "200" "100" "-" "ua" "100" "edge" "https"
    (by decide) (by decide) (by decide) (by decide)

/-! Lemmas for the prefixed-pass precedence (C5). -/

theorem asString_data (l : List Char) : l.asString.data = l := rfl

theorem str_starts_append (p t : String) : str_starts (p ++ t) p = true := by
  rw [str_starts, String.data_append]
  exact starts_with_append _ _

theorem data_ne_nil (k : String) (h : k ≠ "") : k.data ≠ [] := by
  intro he
  exact h (String.ext he)

theorem cmcd_key_decomp (s : String) (h : str_starts s "cmcd." = true) :
    "cmcd." ++ (s.data.drop 5).asString = s := by
  have h2 := starts_with_decomp s.data ("cmcd." : String).data h
  apply String.ext
  rw [String.data_append, asString_data]
  have e : ("cmcd." : String).data = ['c', 'm', 'c', 'd', '.'] := rfl
  rw [e] at h2 ⊢
  simpa using h2.symm

theorem cmcd_key_drop (k : String) : ("cmcd." ++ k).data.drop 5 = k.data := by
  rw [String.data_append]
  have e : ("cmcd." : String).data = ['c', 'm', 'c', 'd', '.'] := rfl
  rw [e]
  simp [List.drop_left ['c', 'm', 'c', 'd', '.'] k.data]

theorem prefixed_fold_cons (p : String × List String) (rest : List (String × List String))
    (out : List (String × String)) :
    prefixed_fold (p :: rest) out = prefixed_fold rest (prefixed_step out p) := rfl

theorem qs_insert_keys_mem (d : List (String × List String)) (k v : String)
    (h : k ∈ d.map Prod.fst) : (qs_insert d k v).map Prod.fst = d.map Prod.fst := by
  induction d with
  | nil => simp at h
  | cons kv rest ih =>
    obtain ⟨k', vs'⟩ := kv
    by_cases h' : k' = k
    · simp [qs_insert, h']
    · simp only [List.map_cons, List.mem_cons] at h
      rcases h with h | h
      · exact absurd h.symm h'
      · simp [qs_insert, h', ih h]

theorem qs_insert_keys_new (d : List (String × List String)) (k v : String)
    (h : k ∉ d.map Prod.fst) : (qs_insert d k v).map Prod.fst = d.map Prod.fst ++ [k] := by
  induction d with
  | nil => simp [qs_insert]
  | cons kv rest ih =>
    obtain ⟨k', vs'⟩ := kv
    simp only [List.map_cons, List.mem_cons, not_or] at h
    have h' : k' ≠ k := fun he => h.1 he.symm
    simp [qs_insert, h', ih h.2]

theorem qs_fold_keys_nodup (pairs : List (String × String)) :
    ∀ d : List (String × List String), (d.map Prod.fst).Nodup →
      ((pairs.foldl (fun d kv => qs_insert d kv.1 kv.2) d).map Prod.fst).Nodup := by
  induction pairs with
  | nil =>
    intro d hd
    simpa using hd
  | cons p rest ih =>
    intro d hd
    simp only [List.foldl_cons]
    refine ih _ ?_
    by_cases h : p.1 ∈ d.map Prod.fst
    · rw [qs_insert_keys_mem _ _ _ h]
      exact hd
    · rw [qs_insert_keys_new _ _ _ h]
      exact nodup_snoc _ _ hd h

theorem parse_qs_keys_nodup (qs : String) : ((parse_qs qs).map Prod.fst).Nodup :=
  qs_fold_keys_nodup _ [] (by simp)

theorem prefixed_fold_preserve (params : List (String × List String)) (K : String) :
    ∀ out, (∀ kv ∈ params, kv.1 ≠ K) →
      dict_get (prefixed_fold params out) K = dict_get out K := by
  induction params with
  | nil =>
    intro out _
    rfl
  | cons p rest ih =>
    intro out hne
    rw [prefixed_fold_cons]
    rw [ih _ (fun kv hkv => hne kv (List.mem_cons_of_mem _ hkv))]
    by_cases hg : (str_starts p.1 "cmcd." && !p.2.isEmpty) = true
    · have hs : str_starts p.1 "cmcd." = true := by
        simpa using (Bool.and_eq_true_iff.1 hg).1
      rw [prefixed_step, if_pos hg]
      by_cases hd : p.1.data.drop 5 = []
      · rw [if_pos hd]
      · rw [if_neg hd, cmcd_key_decomp p.1 hs,
          dict_get_insert_ne _ _ _ _ (hne p (List.mem_cons_self _ _))]
    · rw [prefixed_step, if_neg hg]

theorem prefixed_fold_hit (params : List (String × List String)) (k v2 : String)
    (vs : List String) :
    ∀ out, (params.map Prod.fst).Nodup → ("cmcd." ++ k, v2 :: vs) ∈ params → k ≠ "" →
      dict_get (prefixed_fold params out) ("cmcd." ++ k) = some (clean_value v2) := by
  induction params with
  | nil =>
    intro out _ hmem _
    simp at hmem
  | cons p rest ih =>
    intro out hnd hmem hk
    simp only [List.map_cons, List.nodup_cons] at hnd
    rcases List.mem_cons.1 hmem with hm | hm
    · have hkey : p.1 = "cmcd." ++ k := by rw [← hm]
      have hval : p.2 = v2 :: vs := by rw [← hm]
      have hrest : ∀ kv ∈ rest, kv.1 ≠ "cmcd." ++ k := by
        intro kv hkv he
        exact hnd.1 (hkey ▸ (he ▸ List.mem_map_of_mem Prod.fst hkv))
      rw [prefixed_fold_cons]
      rw [prefixed_fold_preserve rest _ _ hrest]
      have hg : (str_starts p.1 "cmcd." && !p.2.isEmpty) = true := by
        rw [hkey, hval]
        simp [str_starts_append]
      rw [prefixed_step, if_pos hg, hkey,
        if_neg (by rw [cmcd_key_drop]; exact data_ne_nil k hk)]
      rw [cmcd_key_drop]
      have : (k.data.asString) = k := String.ext rfl
      rw [this, hval]
      simp only [List.headD_cons]
      exact dict_get_insert_self _ _ _
    · have hne1 : p.1 ≠ "cmcd." ++ k := by
        intro he
        exact hnd.1 (he ▸ List.mem_map_of_mem Prod.fst hm)
      rw [prefixed_fold_cons]
      exact ih _ hnd.2 hm hk

/-- C5: for every query string in which the combined form supplies a metrics
key `k` (with some value `v1`) and the prefixed form also supplies `k` with
first value `v2`, the extractor's final mapping carries the prefixed-form
value for `k` — the prefixed-parameter pass runs second and overwrites. -/
theorem c5_prefixed_wins (qs k v2 v1 : String) (vs : List String)
    (hq : py_strip qs ≠ "") (hk : k ≠ "")
    (hpre : qdict_get (parse_qs qs) ("cmcd." ++ k) = some (v2 :: vs))
    (_hcomb : dict_get (combined_out (parse_qs qs)) ("cmcd." ++ k) = some v1)
    (_hne : v1 ≠ clean_value v2) :
    dict_get (parse_cmcd_from_query_string qs) ("cmcd." ++ k) = some (clean_value v2) := by
  have hq0 : qs ≠ "" := by
    intro he
    exact hq (by rw [he]; rfl)
  have hguard : (qs = "" || py_strip qs = "") = false := by
    simp [hq0, hq]
  rw [parse_cmcd_from_query_string]
  simp only [hguard, Bool.false_eq_true, if_false]
  rw [cmcd_out]
  exact prefixed_fold_hit (parse_qs qs) k v2 vs (combined_out (parse_qs qs))
    (parse_qs_keys_nodup qs) (qdict_get_mem _ _ _ hpre) hk

/-- Witness for C5 at the concrete query `cmcd=br=1&cmcd.br=2`. -/
theorem c5_prefixed_wins_witness :
    dict_get (parse_cmcd_from_query_string "cmcd=br=1&cmcd.br=2") ("cmcd." ++ "br") =
      some (clean_value "2") :=
  c5_prefixed_wins "cmcd=br=1&cmcd.br=2" "br" "2" "1" []
    (by decide) (by decide) (by decide) (by decide) (by decide)

/-! Tokenizer lemmas relating the state machine to the direct field scan. -/

theorem scan_field_quote (rest : List Char) : scan_field ('"' :: rest) = ([], rest) := rfl

theorem scan_field_esc (d : Char) (rest2 : List Char) :
    scan_field ('\\' :: d :: rest2) =
      ('\\' :: d :: (scan_field rest2).1, (scan_field rest2).2) := rfl

theorem scan_field_other (c : Char) (rest : List Char) (h1 : c ≠ '"') (h2 : c ≠ '\\') :
    scan_field (c :: rest) = (c :: (scan_field rest).1, (scan_field rest).2) := by
  simp [scan_field, h1, h2]

theorem no_close_esc (d : Char) (rest2 : List Char) :
    no_close ('\\' :: d :: rest2) = no_close rest2 := rfl

theorem no_close_other (c : Char) (rest : List Char) (h1 : c ≠ '"') (h2 : c ≠ '\\') :
    no_close (c :: rest) = no_close rest := by
  simp [no_close, h1, h2]

theorem pq_true_esc (acc : List Char) (d : Char) (rest2 : List Char) :
    pq_loop true acc ('\\' :: d :: rest2) = pq_loop true (d :: '\\' :: acc) rest2 := rfl

theorem pq_true_other (acc : List Char) (c : Char) (rest : List Char)
    (h1 : c ≠ '"') (h2 : c ≠ '\\') :
    pq_loop true acc (c :: rest) = pq_loop true (c :: acc) rest := by
  simp [pq_loop, h1, h2]

theorem bal_true_esc (d : Char) (rest2 : List Char) :
    balanced_loop true ('\\' :: d :: rest2) = balanced_loop true rest2 := rfl

theorem bal_true_other (c : Char) (rest : List Char) (h1 : c ≠ '"') (h2 : c ≠ '\\') :
    balanced_loop true (c :: rest) = balanced_loop true rest := by
  simp [balanced_loop, h1, h2]

theorem scan_field_len : ∀ (s : List Char), (scan_field s).2.length ≤ s.length := by
  intro s
  induction s using scan_field.induct <;> simp_all [scan_field] <;> omega

theorem scan_field_all : ∀ (s : List Char), no_close s = true → scan_field s = (s, []) := by
  intro s
  induction s using no_close.induct with
  | case1 =>
    intro _
    rfl
  | case2 rest =>
    intro h
    simp [no_close] at h
  | case3 =>
    intro _
    rfl
  | case4 d rest2 ih =>
    intro h
    rw [no_close_esc] at h
    rw [scan_field_esc, ih h]
  | case5 c rest hq h1 h2 ih =>
    intro h
    have hc : c ≠ '\\' := by
      intro he
      cases rest with
      | nil => exact h1 he rfl
      | cons d r2 => exact h2 d r2 he rfl
    rw [no_close_other c rest hq hc] at h
    rw [scan_field_other c rest hq hc, ih h]

theorem scan_field_append (t : List Char) :
    ∀ (s : List Char), no_close s = false →
      scan_field (s ++ t) = ((scan_field s).1, (scan_field s).2 ++ t) := by
  intro s
  induction s using no_close.induct with
  | case1 =>
    intro h
    simp [no_close] at h
  | case2 rest =>
    intro _
    rw [List.cons_append, scan_field_quote, scan_field_quote]
  | case3 =>
    intro h
    simp [no_close] at h
  | case4 d rest2 ih =>
    intro h
    rw [no_close_esc] at h
    rw [List.cons_append, List.cons_append, scan_field_esc, scan_field_esc, ih h]
  | case5 c rest hq h1 h2 ih =>
    intro h
    have hc : c ≠ '\\' := by
      intro he
      cases rest with
      | nil => exact h1 he rfl
      | cons d r2 => exact h2 d r2 he rfl
    rw [no_close_other c rest hq hc] at h
    rw [List.cons_append, scan_field_other c (rest ++ t) hq hc,
      scan_field_other c rest hq hc, ih h]

theorem pq_true_eq :
    ∀ (s : List Char) (acc : List Char),
      pq_loop true acc s =
        (replace_esc_quote (acc.reverse ++ (scan_field s).1)).asString ::
          pq_loop false [] (scan_field s).2 := by
  intro s
  induction s using no_close.induct with
  | case1 =>
    intro acc
    simp [pq_loop, scan_field]
  | case2 rest =>
    intro acc
    simp [pq_loop, scan_field]
  | case3 =>
    intro acc
    simp [pq_loop, scan_field, List.reverse_cons]
  | case4 d rest2 ih =>
    intro acc
    rw [pq_true_esc, ih (d :: '\\' :: acc), scan_field_esc]
    simp [List.reverse_cons, List.append_assoc]
  | case5 c rest hq h1 h2 ih =>
    intro acc
    have hc : c ≠ '\\' := by
      intro he
      cases rest with
      | nil => exact h1 he rfl
      | cons d r2 => exact h2 d r2 he rfl
    rw [pq_true_other acc c rest hq hc, ih (c :: acc), scan_field_other c rest hq hc]
    simp [List.reverse_cons, List.append_assoc]

theorem balanced_true_eq :
    ∀ (s : List Char),
      balanced_loop true s = (!(no_close s) && balanced_loop false (scan_field s).2) := by
  intro s
  induction s using no_close.induct with
  | case1 => simp [balanced_loop, no_close, scan_field]
  | case2 rest => simp [balanced_loop, no_close, scan_field]
  | case3 => simp [balanced_loop, no_close, scan_field]
  | case4 d rest2 ih =>
    rw [bal_true_esc, ih, no_close_esc, scan_field_esc]
  | case5 c rest hq h1 h2 ih =>
    have hc : c ≠ '\\' := by
      intro he
      cases rest with
      | nil => exact h1 he rfl
      | cons d r2 => exact h2 d r2 he rfl
    rw [bal_true_other c rest hq hc, ih, no_close_other c rest hq hc,
      scan_field_other c rest hq hc]

theorem pqf_nil : parse_quoted_fields_chars [] = [] := rfl

theorem pqf_quote (rest : List Char) :
    parse_quoted_fields_chars ('"' :: rest) =
      (replace_esc_quote (scan_field rest).1).asString ::
        parse_quoted_fields_chars (scan_field rest).2 := by
  show pq_loop false [] ('"' :: rest) = _
  rw [show pq_loop false [] ('"' :: rest) = pq_loop true [] rest from rfl, pq_true_eq]
  rfl

theorem pqf_other (c : Char) (rest : List Char) (h : c ≠ '"') :
    parse_quoted_fields_chars (c :: rest) = parse_quoted_fields_chars rest := by
  simp [parse_quoted_fields_chars, pq_loop, h]

theorem balanced_quote (rest : List Char) :
    balanced_chars ('"' :: rest) = (!(no_close rest) && balanced_chars (scan_field rest).2) := by
  show balanced_loop false ('"' :: rest) = _
  rw [show balanced_loop false ('"' :: rest) = balanced_loop true rest from rfl,
    balanced_true_eq]
  rfl

theorem balanced_other (c : Char) (rest : List Char) (h : c ≠ '"') :
    balanced_chars (c :: rest) = balanced_chars rest := by
  simp [balanced_chars, balanced_loop, h]

/-- C6: the tokenizer is a total function (it never fails or throws — every
branch of `pq_loop` returns a list), and for every line consisting of a
balanced part followed by an opening quote with no subsequent unescaped
closing quote, the token sequence is that of the balanced part extended by
one final field holding all text after that opening quote to end of input
(with the tokenizer's usual escaped-quote unescaping applied); in particular
that field is the last one. -/
theorem c6_unterminated_final_field (pre suf : List Char)
    (hb : balanced_chars pre = true) (hn : no_close suf = true) :
    parse_quoted_fields_chars (pre ++ '"' :: suf) =
      parse_quoted_fields_chars pre ++ [(replace_esc_quote suf).asString] ∧
    (parse_quoted_fields_chars (pre ++ '"' :: suf)).getLast? =
      some ((replace_esc_quote suf).asString) := by
  have base : parse_quoted_fields_chars ('"' :: suf) = [(replace_esc_quote suf).asString] := by
    rw [pqf_quote, scan_field_all suf hn]
    rfl
  have main : ∀ n (pre : List Char), pre.length ≤ n → balanced_chars pre = true →
      parse_quoted_fields_chars (pre ++ '"' :: suf) =
        parse_quoted_fields_chars pre ++ [(replace_esc_quote suf).asString] := by
    intro n
    induction n with
    | zero =>
      intro pre hl _
      have hpre : pre = [] := List.length_eq_zero.1 (Nat.le_zero.1 hl)
      subst hpre
      rw [List.nil_append, base, pqf_nil, List.nil_append]
    | succ n ih =>
      intro pre hl hbal
      cases pre with
      | nil => rw [List.nil_append, base, pqf_nil, List.nil_append]
      | cons c rest =>
        by_cases hc : c = '"'
        · subst hc
          rw [balanced_quote] at hbal
          have hnc : no_close rest = false := by
            rcases Bool.and_eq_true_iff.1 hbal with ⟨h1, _⟩
            simpa using h1
          have hbal2 : balanced_chars (scan_field rest).2 = true :=
            (Bool.and_eq_true_iff.1 hbal).2
          have hlen2 : (scan_field rest).2.length ≤ n := by
            have h1 := scan_field_len rest
            have h2 : rest.length ≤ n := by
              simpa [List.length_cons] using hl
            calc (scan_field rest).2.length ≤ rest.length := h1
              _ ≤ n := h2
          rw [List.cons_append, pqf_quote, scan_field_append ('"' :: suf) rest hnc]
          simp only
          rw [ih _ hlen2 hbal2, pqf_quote, List.cons_append]
        · rw [List.cons_append, pqf_other c _ hc, pqf_other c rest hc]
          rw [balanced_other c rest hc] at hbal
          exact ih rest (by simpa [List.length_cons] using hl) hbal
  have heq := main pre.length pre le_rfl hb
  exact ⟨heq, by rw [heq]; exact List.getLast?_concat _⟩

/-- Witness for C6 at a concrete balanced part and unterminated tail. -/
theorem c6_unterminated_final_field_witness :
    balanced_chars "\"a\" ".data = true ∧ no_close "abc".data = true ∧
      (parse_quoted_fields_chars ("\"a\" ".data ++ '"' :: "abc".data) =
          parse_quoted_fields_chars "\"a\" ".data ++
            [(replace_esc_quote "abc".data).asString] ∧
        (parse_quoted_fields_chars ("\"a\" ".data ++ '"' :: "abc".data)).getLast? =
          some ((replace_esc_quote "abc".data).asString)) :=
  ⟨by decide, by decide, c6_unterminated_final_field _ _ (by decide) (by decide)⟩
